import Mathlib

/-!
Verification of the enhanced-crawler origin/DNS/lifecycle core.

This file gives a shallow embedding, in Lean 4, of the routing, serving,
registration and lifecycle logic of the `enhanced_crawler` package
(`servers/web_server.py`, `servers/dns_server.py`, `servers/git_server.py`,
`servers/base_server.py`, `errors/errors.py`), together with theorems about
that embedding.

Python strings are modelled by Lean `String` (operations are re-implemented
over the underlying `List Char` so that every step of the embedding is
transparent), machine-level side effects (filesystem, DNS wire protocol,
resolv.conf) are modelled by explicit collaborator records or explicit state
passing, and raised exceptions are modelled with `Except`.
-/

/-- Decides whether the first character list is a (list) prefix of the second;
this is the computational core of Python's `str.startswith`. -/
def isPrefixChars : List Char → List Char → Bool
  | [], _ => true
  | _ :: _, [] => false
  | a :: as, b :: bs => a == b && isPrefixChars as bs

/-- Model of Python `s.startswith(pre)`. -/
def pyStartswith (s pre : String) : Bool :=
  isPrefixChars pre.data s.data

/-- Model of Python `s.endswith(suf)` (a reversed prefix test). -/
def pyEndswith (s suf : String) : Bool :=
  isPrefixChars suf.data.reverse s.data.reverse

/-- Decides whether `pat` occurs as a contiguous sublist; this is the
computational core of Python's `pat in s` substring test. -/
def containsChars (pat : List Char) : List Char → Bool
  | [] => isPrefixChars pat []
  | x :: xs => isPrefixChars pat (x :: xs) || containsChars pat xs

/-- Model of Python `pat in s` on strings. -/
def strContains (s pat : String) : Bool :=
  containsChars pat.data s.data

/-- Replaces every non-overlapping occurrence of `pat` (scanning left to
right) by `rep`; the computational core of Python `str.replace`. The `fuel`
argument is only a structural-termination device: every step consumes at
least one character, so starting it at the list's length (as `pyReplace`
does) means the `0` arm is never reached. All call sites in the source use
a non-empty pattern, which the first conjunct of the guard records. -/
def replaceChars (pat rep : List Char) : Nat → List Char → List Char
  | _, [] => []
  | 0, l => l
  | fuel + 1, x :: xs =>
    if pat ≠ [] ∧ isPrefixChars pat (x :: xs) = true then
      rep ++ replaceChars pat rep fuel ((x :: xs).drop pat.length)
    else
      x :: replaceChars pat rep fuel xs

/-- Model of Python `s.replace(old, new)` (used with `old = "//"`). -/
def pyReplace (s old new : String) : String :=
  String.mk (replaceChars old.data new.data s.data.length s.data)

/-- Model of Python `s.lstrip("/")`. -/
def pyLstripSlash (s : String) : String :=
  String.mk (s.data.dropWhile (· == '/'))

/-- Model of Python `s.rstrip("/")`. -/
def pyRstripSlash (s : String) : String :=
  String.mk ((s.data.reverse.dropWhile (· == '/')).reverse)

/-- Model of the Python slice `s[i:]` (a negative start counts from the
end, as in Python). -/
def pySliceFrom (s : String) (i : Int) : String :=
  let n : Int := (s.data.length : Int)
  let start := if i < 0 then max 0 (n + i) else min i n
  String.mk (s.data.drop start.toNat)

/-- Model of Python `s.rfind(c)`: index of the last occurrence of the
character, `-1` when absent. -/
def pyRfindChar (s : String) (c : Char) : Int :=
  match s.data.reverse.findIdx? (· == c) with
  | none => -1
  | some j => (s.data.length : Int) - 1 - (j : Int)

/-- Model of POSIX `os.path.join(a, b)`: an absolute second component
replaces the first; otherwise a separator is inserted unless the first is
empty or already ends in one. -/
def ospath_join (a b : String) : String :=
  if pyStartswith b "/" then b
  else if a == "" || pyEndswith a "/" then a ++ b
  else a ++ "/" ++ b

/-- Three-argument `os.path.join`, folded left as in CPython. -/
def ospath_join3 (a b c : String) : String :=
  ospath_join (ospath_join a b) c

/-- Model of POSIX `os.path.dirname(p)`: keep everything up to and
including the last slash, then strip trailing slashes unless the head is
empty or consists solely of slashes. -/
def ospath_dirname (p : String) : String :=
  let i := pyRfindChar p '/' + 1
  let head := String.mk (p.data.take i.toNat)
  if head != "" && !(head.data.all (· == '/')) then pyRstripSlash head else head

/-- Model of Python `sorted(items)` on strings (lexicographic by code
point, which is exactly the `String` linear order). -/
def pySorted (l : List String) : List String :=
  l.mergeSort (fun a b => decide (a ≤ b))

/-- Mount model from `servers/models.py`: one local filesystem root exposed
under a URL prefix. -/
structure Mount where
  url_path : String
  local_path : String
deriving DecidableEq, Repr

/-- Virtual-host model from `servers/models.py`: a hostname with an ordered
mount list. -/
structure vHost where
  name : String
  mounts : List Mount
deriving DecidableEq, Repr

/-- Failure modes of the filesystem collaborator: `FileNotFoundError` versus
any other exception, matching the two `except` arms in `web_server.py`. -/
inductive FsError where
  | fileNotFound
  | other
deriving DecidableEq, Repr

/-- Model of `web_server.FileSystemAdapter`: the filesystem collaborator the
web server consults. Queries are pure; fallible calls return `Except`. -/
structure FileSystemAdapter where
  exists' : String → Bool
  isdir : String → Bool
  listdir : String → Except FsError (List String)
  read_file : String → Except FsError String

/-- The scanning loop of `WebServer._handle_mount_request` (lines 110-119):
walk the mount list keeping the mount whose matching `url_path` is strictly
longest so far; the accumulator starts at `(None, -1)`. -/
def find_best_match (request_path : String) :
    List Mount → Option Mount → Int → Option Mount × Int
  | [], best_match_mount, best_match_mount_path_len =>
    (best_match_mount, best_match_mount_path_len)
  | mount :: rest, best_match_mount, best_match_mount_path_len =>
    if pyStartswith request_path mount.url_path = true ∧
        (mount.url_path.length : Int) > best_match_mount_path_len then
      find_best_match request_path rest (some mount) (mount.url_path.length : Int)
    else
      find_best_match request_path rest best_match_mount best_match_mount_path_len

/-- Outcome of `WebServer._handle_mount_request`: either a handler with its
arguments, or the `(None, 404)` not-found tuple. -/
inductive MountRequestResult where
  | notFound
  | serveDirectory (mount : Mount) (relative_path full_resource_path : String)
  | serveFile (mount : Mount) (relative_path : String)
deriving DecidableEq, Repr

/-- Model of `WebServer._handle_mount_request` (lines 104-141): longest-prefix
mount selection, relative-path computation, existence check, then dispatch on
directory versus file. -/
def handle_mount_request (fsa : FileSystemAdapter) (mounts : List Mount)
    (request_path : String) : MountRequestResult :=
  match find_best_match request_path mounts none (-1) with
  | (some best_match_mount, best_len) =>
    let relative_path := pyLstripSlash (pySliceFrom request_path best_len)
    let full_resource_path := ospath_join best_match_mount.local_path relative_path
    if fsa.exists' full_resource_path = false then
      MountRequestResult.notFound
    else if fsa.isdir full_resource_path then
      MountRequestResult.serveDirectory best_match_mount relative_path full_resource_path
    else
      MountRequestResult.serveFile best_match_mount relative_path
  | (none, _) => MountRequestResult.notFound

/-- Model of `WebServer._serve_mounted_file` (lines 219-257): the `".."`
substring guard, then a read through the adapter with extension-based
content-type inference. -/
def serve_mounted_file (fsa : FileSystemAdapter) (mount : Mount)
    (relative_path : String) : Nat × List (String × String) × String :=
  if strContains relative_path ".." then
    (403, [], "Forbidden")
  else
    let full_file_path := ospath_join mount.local_path relative_path
    match fsa.read_file full_file_path with
    | Except.ok content =>
      let mimetype :=
        if pyEndswith full_file_path ".html" || pyEndswith full_file_path ".htm" then "text/html"
        else if pyEndswith full_file_path ".css" then "text/css"
        else if pyEndswith full_file_path ".js" then "application/javascript"
        else if pyEndswith full_file_path ".json" then "application/json"
        else if pyEndswith full_file_path ".txt" then "text/plain"
        else "text/plain"
      (200, [("Content-Type", mimetype)], content)
    | Except.error FsError.fileNotFound => (404, [], "Not Found")
    | Except.error FsError.other => (500, [], "Internal Server Error")

/-- One `<li>` item of the listing loop in
`WebServer._generate_directory_listing_html` (lines 205-215). -/
def listing_entry_html (fsa : FileSystemAdapter) (mount : Mount)
    (relative_path full_resource_path item : String) : String :=
  let item_path := ospath_join full_resource_path item
  let url_path := pyReplace (ospath_join3 mount.url_path relative_path item) "//" "/"
  if fsa.isdir item_path then
    "<li><a href=\"" ++ url_path ++ "/\">" ++ item ++ "/</a></li>"
  else
    "<li><a href=\"" ++ url_path ++ "\">" ++ item ++ "</a></li>"

/-- The parent (`..`) link block of
`WebServer._generate_directory_listing_html` (lines 188-203); empty when the
relative path is empty. -/
def parent_link_html (mount : Mount) (relative_path : String) : String :=
  if relative_path != "" then
    let parent_relative_path := ospath_dirname relative_path
    let parent_url_path :=
      if parent_relative_path == "" then mount.url_path
      else pyRstripSlash (ospath_join mount.url_path parent_relative_path)
    let parent_url_path :=
      if mount.url_path == "/" && parent_relative_path == "" then "/"
      else if parent_url_path == "" then "/"
      else parent_url_path
    "<li><a href=\"" ++ parent_url_path ++ "\">..</a></li>"
  else ""

/-- The accumulation of the `for item in sorted(items)` loop: the source
appends each item's fragment to the running string, which concatenation
associativity lets us express as this right-to-left recursion. -/
def listing_items_html (fsa : FileSystemAdapter) (mount : Mount)
    (relative_path full_resource_path : String) : List String → String
  | [] => ""
  | item :: rest =>
    listing_entry_html fsa mount relative_path full_resource_path item ++
      listing_items_html fsa mount relative_path full_resource_path rest

/-- Model of `WebServer._generate_directory_listing_html` (lines 181-217). -/
def generate_directory_listing_html (fsa : FileSystemAdapter) (mount : Mount)
    (relative_path full_resource_path : String) (items : List String) : String :=
  let display_path := pyRstripSlash (ospath_join mount.url_path relative_path) ++ "/"
  "<h1>Directory listing for " ++ display_path ++ "</h1><ul>" ++
    parent_link_html mount relative_path ++
    listing_items_html fsa mount relative_path full_resource_path (pySorted items) ++
    "</ul>"

/-- Model of `WebServer._serve_mounted_directory` (lines 157-179). -/
def serve_mounted_directory (fsa : FileSystemAdapter) (mount : Mount)
    (relative_path full_resource_path : String) :
    Nat × List (String × String) × String :=
  match fsa.listdir full_resource_path with
  | Except.error FsError.fileNotFound => (404, [], "Not Found")
  | Except.error FsError.other => (500, [], "Internal Server Error")
  | Except.ok items =>
    (200, [("Content-Type", "text/html")],
      generate_directory_listing_html fsa mount relative_path full_resource_path items)

/-- Dispatch performed by `before_request_handler` (lines 62-78): call the
selected handler, or emit the 404 "Not Found" response. -/
def run_mount_result (fsa : FileSystemAdapter) :
    MountRequestResult → Nat × List (String × String) × String
  | MountRequestResult.notFound => (404, [], "Not Found")
  | MountRequestResult.serveDirectory mount rel full =>
    serve_mounted_directory fsa mount rel full
  | MountRequestResult.serveFile mount rel => serve_mounted_file fsa mount rel

/-- Model of `WebServer._handle_vhost_routing` (lines 83-102) composed with
the dispatch of `before_request_handler`. -/
def handle_vhost_routing (fsa : FileSystemAdapter) (vhosts : List vHost)
    (hostname path : String) : Nat × List (String × String) × String :=
  match vhosts.find? (fun vh => vh.name == hostname) with
  | some vh => run_mount_result fsa (handle_mount_request fsa vh.mounts path)
  | none => (404, [], "Not Found")

/-- In-place mutation of the first vhost whose name matches, as performed by
`next((vh for vh in self._vhosts if vh.name == hostname), None)` followed by
`vhost.mounts.append(mount)`. -/
def append_mount_to_first (hostname : String) (mount : Mount) :
    List vHost → List vHost
  | [] => []
  | vh :: rest =>
    if vh.name == hostname then { vh with mounts := vh.mounts ++ [mount] } :: rest
    else vh :: append_mount_to_first hostname mount rest

/-- Model of `WebServer.add_vhost_mount` (lines 297-315). The source creates
a fresh vhost with an empty mount list and then appends the new mount to it;
the create-then-append pair is collapsed into appending a vhost holding
exactly the new mount. The Boolean is the "mount point not found" diagnostic
(a warning only; registration proceeds regardless). -/
def add_vhost_mount (fsa : FileSystemAdapter) (vhosts : List vHost)
    (hostname url_path local_path : String) : List vHost × Bool :=
  let missing_diagnostic := !(fsa.exists' local_path)
  if vhosts.any (fun vh => vh.name == hostname) then
    (append_mount_to_first hostname { url_path := url_path, local_path := local_path } vhosts,
      missing_diagnostic)
  else
    (vhosts ++
        [{ name := hostname, mounts := [{ url_path := url_path, local_path := local_path }] }],
      missing_diagnostic)

/-- Observable state of a `WebServer` instance: the running flag and the
routing table (threads and the Flask app carry no routing semantics). -/
structure WebServerState where
  is_running : Bool
  vhosts : List vHost
deriving DecidableEq, Repr

/-- Model of `WebServer.stop` (lines 281-295): the shutdown block is guarded
by `_is_running`; the final `self._vhosts = {}` runs unconditionally (the
source assigns an empty dict, observationally an empty routing table). -/
def WebServer.stop (st : WebServerState) : WebServerState :=
  let st1 := if st.is_running then { st with is_running := false } else st
  { st1 with vhosts := [] }

/-- Observable state of a `GitServer` instance. -/
structure GitServerState where
  repository_directory : String
  dry_run : Bool
deriving DecidableEq, Repr

/-- GitServer defines no `stop` override, so it inherits `BaseServer.stop`,
which only logs; the state is unchanged. -/
def GitServer.stop (st : GitServerState) : GitServerState := st

/-- Events observable through the logging of `BaseServer.manage_lifecycle`:
the `start()` call, the managed body running at the `yield`, and the
`stop()` call. -/
inductive LifecycleEvent where
  | startCalled
  | bodyCalled
  | stopCalled
deriving DecidableEq, BEq, Repr

/-- A service as seen by the lifecycle wrapper: the outcomes of its
`start()` and `stop()` coroutines (`Except.error` models a raised
exception). -/
structure LifecycleService (E : Type) where
  startR : Except E Unit
  stopR : Except E Unit

/-- Sequencing of two steps inside a `try` block: the second runs only when
the first did not raise; events accumulate. -/
def lifecycleAndThen {E A : Type} (x : List LifecycleEvent × Except E Unit)
    (y : List LifecycleEvent × Except E A) : List LifecycleEvent × Except E A :=
  match x.2 with
  | Except.error e => (x.1, Except.error e)
  | Except.ok _ => (x.1 ++ y.1, y.2)

/-- Semantics of Python `try ... finally ...`: the finalizer always runs
after the protected block; an exception raised by the finalizer replaces any
in-flight exception, otherwise the protected block's outcome stands. -/
def tryFinallySem {E A : Type} (tryPart : List LifecycleEvent × Except E A)
    (finPart : List LifecycleEvent × Except E Unit) :
    List LifecycleEvent × Except E A :=
  (tryPart.1 ++ finPart.1,
    match finPart.2 with
    | Except.error e => Except.error e
    | Except.ok _ => tryPart.2)

/-- Model of `BaseServer.manage_lifecycle` (base_server.py lines 34-45):
`try: await self.start(); yield self; finally: await self.stop()`. The body
runs at the `yield`; note that `start()` sits inside the `try`, so the
`finally` (and hence `stop()`) runs even when `start()` raises. -/
def manage_lifecycle {E A : Type} (svc : LifecycleService E)
    (body : Except E A) : List LifecycleEvent × Except E A :=
  tryFinallySem
    (lifecycleAndThen ([LifecycleEvent.startCalled], svc.startR)
      ([LifecycleEvent.bodyCalled], body))
    ([LifecycleEvent.stopCalled], svc.stopR)

/-- The exception classes of `errors/errors.py`, together with Python's
built-in `Exception` base they all ultimately derive from. -/
inductive ErrorClass where
  | pyException
  | error
  | configValidationError
  | configurationError
  | cleanupError
  | crawlerExecutionError
  | dnsServerError
  | initializationError
  | gitCloneError
  | webServerStartError
deriving DecidableEq, BEq, Repr

/-- Method-resolution order of each class in `errors/errors.py`: every named
error derives from `Error`, which derives from `Exception`. -/
def mro : ErrorClass → List ErrorClass
  | ErrorClass.pyException => [ErrorClass.pyException]
  | ErrorClass.error => [ErrorClass.error, ErrorClass.pyException]
  | c => [c, ErrorClass.error, ErrorClass.pyException]

/-- Python `issubclass` over the modelled hierarchy. -/
def isSubclassOf (c d : ErrorClass) : Bool :=
  (mro c).contains d

/-- A raised Python exception: either an `AttributeError` from touching a
never-assigned instance attribute, or an instance of one of the package's
error classes. -/
inductive PyError where
  | attributeError
  | raised (cls : ErrorClass)
deriving DecidableEq, Repr

/-- Handle returned by the external `async_dns` `start_server` call; `close`
marks it closed. -/
structure AsyncDnsServerHandle where
  closed : Bool
deriving DecidableEq, Repr

/-- Model of the external `async_dns` resolver: its host cache, a list of
`(hostname, ip)` answers. -/
structure DnsResolverModel where
  cache : List (String × String)
deriving DecidableEq, Repr

/-- Observable state of a `DnsServer` instance. The `_dns_server` and
`_resolver` attributes are only class annotations until `start()` assigns
them, so each is an `Option`; `none` means the attribute was never
assigned (touching it raises `AttributeError`). -/
structure DnsServerState where
  dry_run : Bool
  dns_server : Option AsyncDnsServerHandle
  resolver : Option DnsResolverModel
deriving DecidableEq, Repr

/-- Model of `DnsServer.remove_dns_resolve_conf` (dns_server.py lines
97-119): rewrite the resolv.conf lines, dropping every line that contains
`"nameserver 127.0.0.1"`; a no-op in dry-run mode. The file contents are
passed and returned explicitly. -/
def remove_dns_resolve_conf (dry_run : Bool) (resolv_conf : List String) :
    List String :=
  if dry_run then resolv_conf
  else resolv_conf.filter (fun line => !(strContains line "nameserver 127.0.0.1"))

/-- Model of `DnsServer.stop` (dns_server.py lines 69-79): unconditionally
calls `self._dns_server.close()` (an `AttributeError` when `start()` never
assigned the attribute) and then rewrites resolv.conf. -/
def DnsServer.stop (st : DnsServerState) (resolv_conf : List String) :
    Except PyError (DnsServerState × List String) :=
  match st.dns_server with
  | none => Except.error PyError.attributeError
  | some srv =>
    Except.ok ({ st with dns_server := some { srv with closed := true } },
      remove_dns_resolve_conf st.dry_run resolv_conf)

/-- Modelled from the spec: the external `async_dns` resolver-cache `add`
collaborator (`self._resolver.cache.add(hostname, A, ip)` in dns_server.py),
whose code is not part of this repository — a hostname maps to exactly one
IP, last-write-wins on re-registration. -/
def cache_add (cache : List (String × String)) (hostname ip_address : String) :
    List (String × String) :=
  (hostname, ip_address) :: cache.filter (fun e => e.1 != hostname)

/-- Model of `DnsServer.add_host` (dns_server.py lines 141-157). When the
`_resolver` attribute was never assigned, the access in the guard raises
`AttributeError` (the guard's own `DnsServerError` arm is unreachable: a
bound `Resolver` object is always truthy). -/
def DnsServer.add_host (st : DnsServerState) (hostname : String)
    (ip_address : String) : Except PyError (DnsServerState × (String × String)) :=
  match st.resolver with
  | none => Except.error PyError.attributeError
  | some r =>
    Except.ok
      ({ st with resolver := some { r with cache := cache_add r.cache hostname ip_address } },
        (hostname, ip_address))

/-- Model of `DnsServer.add_host_by_url` (dns_server.py lines 121-138). The
external `urllib.parse.urlparse(url).hostname` collaborator is passed in as
`hostname_of` (returning `none` for a URL without a hostname component);
Python's `if not hostname` also treats an empty hostname as missing. -/
def DnsServer.add_host_by_url (st : DnsServerState)
    (hostname_of : String → Option String) (url : String) (ip_address : String) :
    Except PyError (DnsServerState × (String × String)) :=
  match hostname_of url with
  | none => Except.error (PyError.raised ErrorClass.dnsServerError)
  | some hostname =>
    if hostname == "" then Except.error (PyError.raised ErrorClass.dnsServerError)
    else DnsServer.add_host st hostname ip_address

/-- Filesystem collaborator on which no path exists. -/
def demo_fs_all_missing : FileSystemAdapter :=
  { exists' := fun _ => false, isdir := fun _ => false,
    listdir := fun _ => Except.error FsError.fileNotFound,
    read_file := fun _ => Except.error FsError.fileNotFound }

/-- Filesystem collaborator on which every path is a readable file. -/
def demo_fs_all_files : FileSystemAdapter :=
  { exists' := fun _ => true, isdir := fun _ => false,
    listdir := fun _ => Except.error FsError.other,
    read_file := fun _ => Except.ok "demo-content" }

/-- Filesystem collaborator on which every path is an empty directory. -/
def demo_fs_all_dirs : FileSystemAdapter :=
  { exists' := fun _ => true, isdir := fun _ => true,
    listdir := fun _ => Except.ok [],
    read_file := fun _ => Except.error FsError.other }

/-- Filesystem collaborator for the spec's Scenario B: `/srv/app` is a
directory listing `["a.txt", "sub"]`, where `sub` is itself a directory. -/
def scenario_b_fs : FileSystemAdapter :=
  { exists' := fun p => p == "/srv/app" || p == "/srv/app/a.txt" || p == "/srv/app/sub",
    isdir := fun p => p == "/srv/app" || p == "/srv/app/sub",
    listdir := fun p =>
      if p == "/srv/app" then Except.ok ["a.txt", "sub"] else Except.error FsError.fileNotFound,
    read_file := fun p =>
      if p == "/srv/app/a.txt" then Except.ok "hello" else Except.error FsError.fileNotFound }

/-- A prefix is never longer than the list it prefixes. -/
theorem isPrefixChars_length {p l : List Char} (h : isPrefixChars p l = true) :
    p.length ≤ l.length := by
  induction p generalizing l with
  | nil => simp
  | cons a as ih =>
    cases l with
    | nil => simp [isPrefixChars] at h
    | cons b bs =>
      simp only [isPrefixChars, Bool.and_eq_true] at h
      have := ih h.2
      simp only [List.length_cons]
      omega

/-- Transitivity of the character-prefix test. -/
theorem isPrefixChars_trans {a b c : List Char} (h1 : isPrefixChars a b = true)
    (h2 : isPrefixChars b c = true) : isPrefixChars a c = true := by
  induction a generalizing b c with
  | nil => simp [isPrefixChars]
  | cons x xs ih =>
    cases b with
    | nil => simp [isPrefixChars] at h1
    | cons y ys =>
      cases c with
      | nil => simp [isPrefixChars] at h2
      | cons z zs =>
        simp only [isPrefixChars, Bool.and_eq_true, beq_iff_eq] at h1 h2 ⊢
        exact ⟨h1.1.trans h2.1, ih h1.2 h2.2⟩

/-- Every list is a prefix of itself extended on the right. -/
theorem isPrefixChars_append_self (p r : List Char) :
    isPrefixChars p (p ++ r) = true := by
  induction p with
  | nil => simp [isPrefixChars]
  | cons x xs ih => simp [isPrefixChars, ih]

/-- A pattern is found in any list in which it occurs contiguously. -/
theorem containsChars_split (p a b l : List Char) (h : l = a ++ (p ++ b)) :
    containsChars p l = true := by
  subst h
  induction a with
  | nil =>
    cases hpb : p ++ b with
    | nil =>
      have hp : p = [] := by
        cases p with
        | nil => rfl
        | cons x xs => simp at hpb
      simp [hp, containsChars, isPrefixChars]
    | cons x xs =>
      simp only [List.nil_append]
      have := isPrefixChars_append_self p b
      rw [hpb] at this
      simp [containsChars, this]
  | cons x xs ih =>
    simp only [List.cons_append, containsChars, Bool.or_eq_true]
    exact Or.inr ih

/-- String-level corollary: a block that occurs between two other strings is
found by the substring test. -/
theorem strContains_split (s x mid y : String) (h : s = x ++ (mid ++ y)) :
    strContains s mid = true := by
  subst h
  refine containsChars_split mid.data x.data y.data _ ?_
  simp [String.data_append]

/-- The running best length of the matching loop never decreases. -/
theorem fbm_mono (p : String) :
    ∀ (l : List Mount) (b : Option Mount) (n : Int),
      n ≤ (find_best_match p l b n).2 := by
  intro l
  induction l with
  | nil => intro b n; simp [find_best_match]
  | cons x rest ih =>
    intro b n
    simp only [find_best_match]
    split
    · next h => exact le_trans (le_of_lt h.2) (ih _ _)
    · exact ih _ _

/-- After the loop, the best length dominates the length of every matching
mount in the scanned list. -/
theorem fbm_dom (p : String) :
    ∀ (l : List Mount) (b : Option Mount) (n : Int) (m : Mount),
      m ∈ l → pyStartswith p m.url_path = true →
      (m.url_path.length : Int) ≤ (find_best_match p l b n).2 := by
  intro l
  induction l with
  | nil => intro b n m hm; simp at hm
  | cons x rest ih =>
    intro b n m hm hs
    simp only [find_best_match]
    rcases List.mem_cons.mp hm with hx | hrest
    · subst hx
      split
      · exact fbm_mono p rest _ _
      · next hcond =>
        have hle : (m.url_path.length : Int) ≤ n := by
          by_contra hgt
          exact hcond ⟨hs, lt_of_not_ge hgt⟩
        exact le_trans hle (fbm_mono p rest _ _)
    · split
      · exact ih _ _ m hrest hs
      · exact ih _ _ m hrest hs

/-- The loop either leaves its accumulator untouched or returns some
matching mount of the list paired with that mount's own length. -/
theorem fbm_shape (p : String) :
    ∀ (l : List Mount) (b : Option Mount) (n : Int),
      find_best_match p l b n = (b, n) ∨
        ∃ m, m ∈ l ∧ pyStartswith p m.url_path = true ∧
          find_best_match p l b n = (some m, (m.url_path.length : Int)) := by
  intro l
  induction l with
  | nil => intro b n; left; simp [find_best_match]
  | cons x rest ih =>
    intro b n
    simp only [find_best_match]
    split
    · next h =>
      rcases ih (some x) (x.url_path.length : Int) with h1 | ⟨m, hm, hs, he⟩
      · right; exact ⟨x, List.mem_cons_self x rest, h.1, h1⟩
      · right; exact ⟨m, List.mem_cons_of_mem x hm, hs, he⟩
    · rcases ih b n with h1 | ⟨m, hm, hs, he⟩
      · left; exact h1
      · right; exact ⟨m, List.mem_cons_of_mem x hm, hs, he⟩

/-- When no remaining mount matches with a length above the accumulator, the
loop keeps the accumulator: a later equal-length match never overrides. -/
theorem fbm_keep (p : String) :
    ∀ (l : List Mount) (b : Option Mount) (n : Int),
      (∀ m ∈ l, pyStartswith p m.url_path = true → (m.url_path.length : Int) ≤ n) →
      find_best_match p l b n = (b, n) := by
  intro l
  induction l with
  | nil => intro b n _; simp [find_best_match]
  | cons x rest ih =>
    intro b n h
    simp only [find_best_match]
    rw [if_neg]
    · exact ih b n (fun m hm hs => h m (List.mem_cons_of_mem x hm) hs)
    · intro hc
      have hx := h x (List.mem_cons_self x rest) hc.1
      have := hc.2
      omega

/-- The loop over a concatenation is the loop over the second part started
from the state reached after the first part. -/
theorem fbm_append (p : String) :
    ∀ (l1 l2 : List Mount) (b : Option Mount) (n : Int),
      find_best_match p (l1 ++ l2) b n =
        find_best_match p l2 (find_best_match p l1 b n).1
          (find_best_match p l1 b n).2 := by
  intro l1
  induction l1 with
  | nil => intro l2 b n; simp [find_best_match]
  | cons x rest ih =>
    intro l2 b n
    simp only [List.cons_append, find_best_match]
    split
    · exact ih l2 _ _
    · exact ih l2 _ _

/-- Each rendered entry occurs as a contiguous block of the concatenated
listing items. -/
theorem listing_items_split (fsa : FileSystemAdapter) (mount : Mount)
    (relative_path full_resource_path : String) :
    ∀ (l : List String) (x : String), x ∈ l →
      ∃ pre post : String,
        listing_items_html fsa mount relative_path full_resource_path l =
          pre ++ (listing_entry_html fsa mount relative_path full_resource_path x ++ post) := by
  intro l
  induction l with
  | nil => intro x hx; simp at hx
  | cons y ys ih =>
    intro x hx
    rcases List.mem_cons.mp hx with hxy | hmem
    · subst hxy
      exact ⟨"", listing_items_html fsa mount relative_path full_resource_path ys, by
        simp [listing_items_html, String.ext_iff, String.data_append]⟩
    · obtain ⟨pre, post, hsplit⟩ := ih x hmem
      refine ⟨listing_entry_html fsa mount relative_path full_resource_path y ++ pre, post, ?_⟩
      simp [listing_items_html, hsplit, String.ext_iff, String.data_append]

/-- Scanning a vhost list with no earlier match appends the mount to the
first vhost whose name matches, leaving everything else untouched. -/
theorem append_mount_to_first_eq (hostname : String) (mount : Mount) :
    ∀ (pre : List vHost) (vh : vHost) (post : List vHost),
      vh.name = hostname → (∀ x ∈ pre, x.name ≠ hostname) →
      append_mount_to_first hostname mount (pre ++ vh :: post) =
        pre ++ { vh with mounts := vh.mounts ++ [mount] } :: post := by
  intro pre
  induction pre with
  | nil =>
    intro vh post hname _
    simp [append_mount_to_first, beq_iff_eq, hname]
  | cons x rest ih =>
    intro vh post hname hpre
    have hx : x.name ≠ hostname := hpre x (List.mem_cons_self x rest)
    simp only [List.cons_append, append_mount_to_first]
    rw [if_neg (by simpa [beq_iff_eq] using hx)]
    rw [List.append_eq, ih vh post hname (fun y hy => hpre y (List.mem_cons_of_mem x hy))]

/-- C4: for every mount and every computed relative path containing the
substring "..", file serving answers 403 Forbidden, whatever the filesystem
collaborator says — in particular also when the joined path exists and would
remain inside the mount's local root: the guard is a raw substring test, not
a normalized-path containment check. -/
theorem claim_C4 (fsa : FileSystemAdapter) (mount : Mount)
    (relative_path : String) (h : strContains relative_path ".." = true) :
    serve_mounted_file fsa mount relative_path = (403, [], "Forbidden") := by
  simp [serve_mounted_file, h]

/-- Witness for C4 at the spec's Scenario C relative path, on a filesystem
collaborator for which every path is a readable file (so the joined path
would exist inside the root). -/
theorem claim_C4_witness :
    strContains "../etc/passwd" ".." = true ∧
    serve_mounted_file demo_fs_all_files
      { url_path := "/app", local_path := "/srv/app" } "../etc/passwd" =
      (403, [], "Forbidden") :=
  ⟨by decide, claim_C4 demo_fs_all_files
    { url_path := "/app", local_path := "/srv/app" } "../etc/passwd" (by decide)⟩

/-- C2: when `m1.url_path` is a strict string prefix of `m2.url_path`, a
request path starting with `m2.url_path` never resolves via `m1`: the
selected mount's prefix is at least as long as `m2`'s (longest match wins),
so it cannot be `m1`; and with exactly these two mounts registered, in
either order, the selection is `m2`. -/
theorem claim_C2 (mounts : List Mount) (m1 m2 : Mount) (p : String)
    (hm2 : m2 ∈ mounts)
    (hpre : pyStartswith m2.url_path m1.url_path = true)
    (hlt : m1.url_path.length < m2.url_path.length)
    (hp : pyStartswith p m2.url_path = true) :
    (∃ m, m ∈ mounts ∧
      find_best_match p mounts none (-1) = (some m, (m.url_path.length : Int)) ∧
      pyStartswith p m.url_path = true ∧
      m2.url_path.length ≤ m.url_path.length ∧ m ≠ m1) ∧
    find_best_match p [m1, m2] none (-1) = (some m2, (m2.url_path.length : Int)) ∧
    find_best_match p [m2, m1] none (-1) = (some m2, (m2.url_path.length : Int)) := by
  have hp1 : pyStartswith p m1.url_path = true := isPrefixChars_trans hpre hp
  refine ⟨?_, ?_, ?_⟩
  · have hdom := fbm_dom p mounts none (-1) m2 hm2 hp
    rcases fbm_shape p mounts none (-1) with hsh | ⟨m, hm, hs, he⟩
    · rw [hsh] at hdom
      have hneg : (m2.url_path.length : Int) ≤ -1 := hdom
      omega
    · rw [he] at hdom
      have hcast : (m2.url_path.length : Int) ≤ (m.url_path.length : Int) := hdom
      have hlen : m2.url_path.length ≤ m.url_path.length := by exact_mod_cast hcast
      refine ⟨m, hm, he, hs, hlen, ?_⟩
      intro hcontra
      rw [hcontra] at hlen
      omega
  · simp only [find_best_match]
    rw [if_pos ⟨hp1, by omega⟩, if_pos ⟨hp, by exact_mod_cast hlt⟩]
  · simp only [find_best_match]
    rw [if_pos ⟨hp, by omega⟩,
      if_neg (fun hc => absurd hc.2 (by push_neg; exact_mod_cast le_of_lt hlt))]

/-- Witness for C2 at the spec's Scenario E: mounts `/app` and `/app/docs`,
request `/app/docs/readme.txt` resolves via `/app/docs`. -/
theorem claim_C2_witness :
    pyStartswith "/app/docs" "/app" = true ∧
    ("/app" : String).length < ("/app/docs" : String).length ∧
    pyStartswith "/app/docs/readme.txt" "/app/docs" = true ∧
    find_best_match "/app/docs/readme.txt"
      [{ url_path := "/app", local_path := "/srv/app" },
       { url_path := "/app/docs", local_path := "/srv/docs" }] none (-1) =
      (some { url_path := "/app/docs", local_path := "/srv/docs" },
        (("/app/docs" : String).length : Int)) :=
  ⟨by decide, by decide, by decide,
    (claim_C2
      [{ url_path := "/app", local_path := "/srv/app" },
       { url_path := "/app/docs", local_path := "/srv/docs" }]
      { url_path := "/app", local_path := "/srv/app" }
      { url_path := "/app/docs", local_path := "/srv/docs" }
      "/app/docs/readme.txt" (by decide) (by decide) (by decide) (by decide)).2.1⟩

/-- One scanning step on a mount that matches with a strictly longer
prefix: the accumulator is replaced. -/
theorem fbm_cons_pos (p : String) (x : Mount) (rest : List Mount)
    (b : Option Mount) (n : Int) (h1 : pyStartswith p x.url_path = true)
    (h2 : (x.url_path.length : Int) > n) :
    find_best_match p (x :: rest) b n =
      find_best_match p rest (some x) (x.url_path.length : Int) := by
  simp only [find_best_match]
  rw [if_pos ⟨h1, h2⟩]

/-- One scanning step on a mount that fails the match-and-longer test: the
accumulator is kept. -/
theorem fbm_cons_neg (p : String) (x : Mount) (rest : List Mount)
    (b : Option Mount) (n : Int)
    (h : ¬(pyStartswith p x.url_path = true ∧ (x.url_path.length : Int) > n)) :
    find_best_match p (x :: rest) b n = find_best_match p rest b n := by
  simp only [find_best_match]
  rw [if_neg h]

/-- C3: when the maximal matching prefix length is attained both by a mount
m1 and by a later-registered mount m2, the loop's strict-improvement test
keeps the earlier entry: the selected mount sits at or before m1's position
in the registration order, so the later m2 never wins over m1. -/
theorem claim_C3 (l1 l2 l3 : List Mount) (m1 m2 : Mount) (p : String)
    (hm1 : pyStartswith p m1.url_path = true)
    (hm2 : pyStartswith p m2.url_path = true)
    (heq : m1.url_path.length = m2.url_path.length)
    (hmax : ∀ x ∈ l1 ++ m1 :: l2 ++ m2 :: l3,
      pyStartswith p x.url_path = true → x.url_path.length ≤ m1.url_path.length) :
    ∃ m, find_best_match p (l1 ++ m1 :: l2 ++ m2 :: l3) none (-1) =
        (some m, (m.url_path.length : Int)) ∧
      m ∈ l1 ++ [m1] ∧ pyStartswith p m.url_path = true ∧
      m.url_path.length = m1.url_path.length := by
  have hmem_rest : ∀ x ∈ l2 ++ m2 :: l3, x ∈ l1 ++ m1 :: l2 ++ m2 :: l3 := by
    intro x hx
    simp only [List.mem_append, List.mem_cons] at hx ⊢
    tauto
  have hkeep : ∀ b : Option Mount,
      find_best_match p (l2 ++ m2 :: l3) b (m1.url_path.length : Int) =
        (b, (m1.url_path.length : Int)) := by
    intro b
    refine fbm_keep p (l2 ++ m2 :: l3) b _ ?_
    intro x hx hs
    exact_mod_cast hmax x (hmem_rest x hx) hs
  have hL : l1 ++ m1 :: l2 ++ m2 :: l3 = l1 ++ (m1 :: (l2 ++ m2 :: l3)) := by simp
  rw [hL, fbm_append p l1 (m1 :: (l2 ++ m2 :: l3)) none (-1)]
  rcases fbm_shape p l1 none (-1) with hsh | ⟨mb, hmb, hsb, heb⟩
  · have hsh1 : (find_best_match p l1 none (-1)).1 = none := by rw [hsh]
    have hsh2 : (find_best_match p l1 none (-1)).2 = -1 := by rw [hsh]
    rw [hsh1, hsh2,
      fbm_cons_pos p m1 (l2 ++ m2 :: l3) none (-1) hm1 (by omega),
      hkeep (some m1)]
    exact ⟨m1, rfl, by simp, hm1, rfl⟩
  · have heb1 : (find_best_match p l1 none (-1)).1 = some mb := by rw [heb]
    have heb2 : (find_best_match p l1 none (-1)).2 = (mb.url_path.length : Int) := by
      rw [heb]
    rw [heb1, heb2]
    have hble : mb.url_path.length ≤ m1.url_path.length := by
      refine hmax mb (by simp [hmb]) hsb
    rcases lt_or_eq_of_le hble with hblt | hbeq
    · rw [fbm_cons_pos p m1 (l2 ++ m2 :: l3) (some mb) ((mb.url_path.length : Int))
        hm1 (by exact_mod_cast hblt), hkeep (some m1)]
      exact ⟨m1, rfl, by simp, hm1, rfl⟩
    · have hneg : ¬(pyStartswith p m1.url_path = true ∧
          (m1.url_path.length : Int) > (mb.url_path.length : Int)) := by
        intro hc
        have hle : (m1.url_path.length : Int) ≤ (mb.url_path.length : Int) := by
          exact_mod_cast hbeq.ge
        omega
      rw [fbm_cons_neg p m1 (l2 ++ m2 :: l3) (some mb) ((mb.url_path.length : Int)) hneg]
      have hk : find_best_match p (l2 ++ m2 :: l3) (some mb) ((mb.url_path.length : Int)) =
          (some mb, (mb.url_path.length : Int)) := by
        rw [hbeq]
        exact hkeep (some mb)
      rw [hk]
      exact ⟨mb, rfl, by simp [hmb], hsb, hbeq⟩

/-- Witness for C3: two mounts with the identical prefix `/app` registered
for different local roots; the earlier-registered one is selected. -/
theorem claim_C3_witness :
    ∃ m, find_best_match "/app/x"
        [{ url_path := "/app", local_path := "/first" },
         { url_path := "/app", local_path := "/second" }] none (-1) =
        (some m, (m.url_path.length : Int)) ∧
      m ∈ [({ url_path := "/app", local_path := "/first" } : Mount)] ∧
      pyStartswith "/app/x" m.url_path = true ∧
      m.url_path.length = ("/app" : String).length := by
  have h := claim_C3 [] [] [] { url_path := "/app", local_path := "/first" }
    { url_path := "/app", local_path := "/second" } "/app/x"
    (by decide) (by decide) (by decide) (by decide)
  simpa using h

/-- C6: mount matching is a raw string-prefix test, not a path-segment
test — a single mount at `/app` matches the request `/appliance/x`, which is
then resolved relative to the mount's local root (here as a file with
relative path `liance/x`), instead of yielding NotFound. -/
theorem claim_C6 (lp : String) (fsa : FileSystemAdapter)
    (hex : fsa.exists' (ospath_join lp "liance/x") = true)
    (hdir : fsa.isdir (ospath_join lp "liance/x") = false) :
    find_best_match "/appliance/x" [{ url_path := "/app", local_path := lp }] none (-1) =
      (some { url_path := "/app", local_path := lp }, 4) ∧
    handle_mount_request fsa [{ url_path := "/app", local_path := lp }] "/appliance/x" =
      MountRequestResult.serveFile { url_path := "/app", local_path := lp } "liance/x" := by
  have hfbm : find_best_match "/appliance/x"
      [{ url_path := "/app", local_path := lp }] none (-1) =
      (some { url_path := "/app", local_path := lp }, 4) := by
    rw [fbm_cons_pos "/appliance/x" { url_path := "/app", local_path := lp } [] none (-1)
      (by show pyStartswith "/appliance/x" "/app" = true; decide)
      (by show ((("/app" : String).length : Int)) > -1; decide)]
    have h4 : ((({ url_path := "/app", local_path := lp } : Mount).url_path.length : Int)) = 4 := by
      show ((("/app" : String).length : Int)) = 4
      decide
    rw [h4]
    rfl
  refine ⟨hfbm, ?_⟩
  have hrel : pyLstripSlash (pySliceFrom "/appliance/x" 4) = "liance/x" := by decide
  simp only [handle_mount_request, hfbm, hrel, hex, hdir]
  simp

/-- Witness for C6: the mount `/app` over `/srv/app`, on a filesystem where
the joined target exists as a file. -/
theorem claim_C6_witness :
    demo_fs_all_files.exists' (ospath_join "/srv/app" "liance/x") = true ∧
    demo_fs_all_files.isdir (ospath_join "/srv/app" "liance/x") = false ∧
    handle_mount_request demo_fs_all_files
      [{ url_path := "/app", local_path := "/srv/app" }] "/appliance/x" =
      MountRequestResult.serveFile
        { url_path := "/app", local_path := "/srv/app" } "liance/x" :=
  ⟨rfl, rfl, (claim_C6 "/srv/app" demo_fs_all_files rfl rfl).2⟩

/-- C10: the filesystem existence check of request resolution precedes the
traversal guard, and the guard lives only in the file-serving branch: for a
request whose computed relative path contains "..", a non-existent joined
path yields NotFound (404), not Forbidden, and an existing joined directory
yields a 200 directory listing with no Forbidden check at all. -/
theorem claim_C10 (fsa : FileSystemAdapter) (mounts : List Mount) (p : String)
    (m : Mount) (L : Int) (rel full : String)
    (hbest : find_best_match p mounts none (-1) = (some m, L))
    (hrel : rel = pyLstripSlash (pySliceFrom p L))
    (hfull : full = ospath_join m.local_path rel)
    (hdots : strContains rel ".." = true) :
    (fsa.exists' full = false →
      handle_mount_request fsa mounts p = MountRequestResult.notFound) ∧
    (fsa.exists' full = true → fsa.isdir full = true →
      handle_mount_request fsa mounts p =
        MountRequestResult.serveDirectory m rel full ∧
      ∀ items, fsa.listdir full = Except.ok items →
        run_mount_result fsa (MountRequestResult.serveDirectory m rel full) =
          (200, [("Content-Type", "text/html")],
            generate_directory_listing_html fsa m rel full items)) := by
  subst hrel
  subst hfull
  constructor
  · intro hex
    simp only [handle_mount_request, hbest, hex]
    simp
  · intro hex hdir
    constructor
    · simp only [handle_mount_request, hbest, hex, hdir]
      simp
    · intro items hitems
      simp only [run_mount_result, serve_mounted_directory, hitems]

/-- Witness for C10 at the request `/app/../x` on the mount `/app →
/srv/app` (relative path `../x`): a missing target gives 404, an existing
directory target gives the 200 listing. -/
theorem claim_C10_witness :
    handle_mount_request demo_fs_all_missing
      [{ url_path := "/app", local_path := "/srv/app" }] "/app/../x" =
      MountRequestResult.notFound ∧
    handle_mount_request demo_fs_all_dirs
      [{ url_path := "/app", local_path := "/srv/app" }] "/app/../x" =
      MountRequestResult.serveDirectory
        { url_path := "/app", local_path := "/srv/app" } "../x" "/srv/app/../x" ∧
    run_mount_result demo_fs_all_dirs
      (MountRequestResult.serveDirectory
        { url_path := "/app", local_path := "/srv/app" } "../x" "/srv/app/../x") =
      (200, [("Content-Type", "text/html")],
        generate_directory_listing_html demo_fs_all_dirs
          { url_path := "/app", local_path := "/srv/app" } "../x" "/srv/app/../x" []) := by
  have h1 := claim_C10 demo_fs_all_missing
    [{ url_path := "/app", local_path := "/srv/app" }] "/app/../x"
    { url_path := "/app", local_path := "/srv/app" } 4 "../x" "/srv/app/../x"
    (by decide) (by decide) (by decide) (by decide)
  have h2 := claim_C10 demo_fs_all_dirs
    [{ url_path := "/app", local_path := "/srv/app" }] "/app/../x"
    { url_path := "/app", local_path := "/srv/app" } 4 "../x" "/srv/app/../x"
    (by decide) (by decide) (by decide) (by decide)
  exact ⟨h1.1 rfl, (h2.2 rfl rfl).1, (h2.2 rfl rfl).2 [] rfl⟩

/-- C7: `add_vhost_mount` always succeeds and only appends — an unknown
hostname gets a fresh vhost holding exactly the new mount at the end of the
table; a known hostname has the mount appended to its first matching vhost
with every previously registered mount preserved; and the registered table
never depends on whether the local path exists, only the non-fatal
diagnostic flag does. -/
theorem claim_C7 (fsa fsa2 : FileSystemAdapter) (vhosts : List vHost)
    (hostname url_path local_path : String) :
    ((∀ vh ∈ vhosts, vh.name ≠ hostname) →
      add_vhost_mount fsa vhosts hostname url_path local_path =
        (vhosts ++
          [{ name := hostname, mounts := [{ url_path := url_path, local_path := local_path }] }],
          !(fsa.exists' local_path))) ∧
    (∀ pre vh post, vhosts = pre ++ vh :: post → vh.name = hostname →
      (∀ x ∈ pre, x.name ≠ hostname) →
      (add_vhost_mount fsa vhosts hostname url_path local_path).1 =
        pre ++
          { vh with mounts := vh.mounts ++ [{ url_path := url_path, local_path := local_path }] }
            :: post) ∧
    ((add_vhost_mount fsa vhosts hostname url_path local_path).1 =
      (add_vhost_mount fsa2 vhosts hostname url_path local_path).1 ∧
     (add_vhost_mount fsa vhosts hostname url_path local_path).2 =
      !(fsa.exists' local_path)) := by
  refine ⟨?_, ?_, ?_, ?_⟩
  · intro hnone
    have hany : vhosts.any (fun vh => vh.name == hostname) = false := by
      simp only [List.any_eq_false]
      intro vh hvh
      simpa [beq_iff_eq] using hnone vh hvh
    simp [add_vhost_mount, hany]
  · intro pre vh post hsplit hname hpre
    subst hsplit
    have hany : (pre ++ vh :: post).any (fun x => x.name == hostname) = true := by
      simp only [List.any_eq_true]
      exact ⟨vh, by simp, by simp [beq_iff_eq, hname]⟩
    simp only [add_vhost_mount, hany, if_true]
    exact append_mount_to_first_eq hostname _ pre vh post hname hpre
  · simp only [add_vhost_mount]
    split <;> rfl
  · simp only [add_vhost_mount]
    split <;> rfl

/-- Witness for C7: appending to an existing vhost preserves its earlier
mount, and an unknown hostname creates a fresh single-mount vhost with the
diagnostic raised on a missing local path. -/
theorem claim_C7_witness :
    (add_vhost_mount demo_fs_all_missing
      [{ name := "x.test", mounts := [{ url_path := "/a", local_path := "/la" }] }]
      "x.test" "/b" "/lb").1 =
      [{ name := "x.test",
         mounts := [{ url_path := "/a", local_path := "/la" },
                    { url_path := "/b", local_path := "/lb" }] }] ∧
    add_vhost_mount demo_fs_all_missing [] "y.test" "/c" "/lc" =
      ([{ name := "y.test", mounts := [{ url_path := "/c", local_path := "/lc" }] }], true) := by
  have h := claim_C7 demo_fs_all_missing demo_fs_all_files
    [{ name := "x.test", mounts := [{ url_path := "/a", local_path := "/la" }] }]
    "x.test" "/b" "/lb"
  have h2 := claim_C7 demo_fs_all_missing demo_fs_all_files ([] : List vHost)
    "y.test" "/c" "/lc"
  constructor
  · have hb := h.2.1 []
      { name := "x.test", mounts := [{ url_path := "/a", local_path := "/la" }] } []
      (by simp) rfl (by simp)
    simpa using hb
  · have ha := h2.1 (by simp)
    simpa using ha

/-- C8: directory-listing generation emits one list item per entry with
entries in lexicographic order (the rendered items run over the sorted
permutation of the raw listing), a directory entry carrying a
trailing-slash link and label and a file entry a plain link; concretely,
for the mount `/app` over `/srv/app` listing `["a.txt", "sub"]` with `sub`
a directory, the response is a 200 HTML page containing a link to
`/app/sub/` and a link to `/app/a.txt`. -/
theorem claim_C8 :
    (∀ (fsa : FileSystemAdapter) (mount : Mount) (rel full : String)
        (items : List String) (item : String), item ∈ items →
      strContains (generate_directory_listing_html fsa mount rel full items)
        (listing_entry_html fsa mount rel full item) = true) ∧
    (∀ items : List String,
      (pySorted items).Perm items ∧
      List.Pairwise (fun a b : String => a ≤ b) (pySorted items)) ∧
    (serve_mounted_directory scenario_b_fs
        { url_path := "/app", local_path := "/srv/app" } "" "/srv/app" =
      (200, [("Content-Type", "text/html")],
        generate_directory_listing_html scenario_b_fs
          { url_path := "/app", local_path := "/srv/app" } "" "/srv/app"
          ["a.txt", "sub"]) ∧
     strContains
       (generate_directory_listing_html scenario_b_fs
         { url_path := "/app", local_path := "/srv/app" } "" "/srv/app"
         ["a.txt", "sub"])
       "<a href=\"/app/sub/\">sub/</a>" = true ∧
     strContains
       (generate_directory_listing_html scenario_b_fs
         { url_path := "/app", local_path := "/srv/app" } "" "/srv/app"
         ["a.txt", "sub"])
       "<a href=\"/app/a.txt\">a.txt</a>" = true) := by
  refine ⟨?_, ?_, ?_⟩
  · intro fsa mount rel full items item hmem
    have hmem' : item ∈ pySorted items :=
      ((List.mergeSort_perm items (fun a b => decide (a ≤ b))).mem_iff).mpr hmem
    obtain ⟨pre, post, hsplit⟩ :=
      listing_items_split fsa mount rel full (pySorted items) item hmem'
    refine strContains_split _
      ("<h1>Directory listing for " ++
        (pyRstripSlash (ospath_join mount.url_path rel) ++ "/") ++ "</h1><ul>" ++
        parent_link_html mount rel ++ pre)
      _ (post ++ "</ul>") ?_
    simp only [generate_directory_listing_html, hsplit]
    simp [String.append_assoc]
  · intro items
    refine ⟨List.mergeSort_perm items (fun a b => decide (a ≤ b)), ?_⟩
    have htrans : ∀ a b c : String, decide (a ≤ b) = true → decide (b ≤ c) = true →
        decide (a ≤ c) = true := by
      intro a b c hab hbc
      simp only [decide_eq_true_eq] at hab hbc ⊢
      exact le_trans hab hbc
    have htotal : ∀ a b : String, (decide (a ≤ b) || decide (b ≤ a)) = true := by
      intro a b
      simp only [Bool.or_eq_true, decide_eq_true_eq]
      exact le_total a b
    have hp := List.sorted_mergeSort htrans htotal items
    exact hp.imp (fun h => of_decide_eq_true h)
  · have hsorted : pySorted ["a.txt", "sub"] = ["a.txt", "sub"] := by
      apply List.mergeSort_eq_self
      simp
      decide
    refine ⟨rfl, ?_, ?_⟩
    · simp only [generate_directory_listing_html, hsorted]
      decide
    · simp only [generate_directory_listing_html, hsorted]
      decide

/-- Witness for C8: the directory entry `sub` of the Scenario-B listing has
its rendered list item inside the generated page. -/
theorem claim_C8_witness :
    "sub" ∈ ["a.txt", "sub"] ∧
    strContains
      (generate_directory_listing_html scenario_b_fs
        { url_path := "/app", local_path := "/srv/app" } "" "/srv/app"
        ["a.txt", "sub"])
      (listing_entry_html scenario_b_fs
        { url_path := "/app", local_path := "/srv/app" } "" "/srv/app" "sub") = true :=
  ⟨by decide, claim_C8.1 scenario_b_fs { url_path := "/app", local_path := "/srv/app" }
    "" "/srv/app" ["a.txt", "sub"] "sub" (by decide)⟩

/-- Counterexample for C1: in `manage_lifecycle`, `start()` sits inside the
`try` of a `try/finally`, so when `start()` raises, the `finally` still runs
`stop()` — here a service whose `start()` raises error `7` produces the
event trace `[startCalled, stopCalled]`, refuting "stop() is never
called". -/
theorem claim_C1_counterexample :
    manage_lifecycle
      ({ startR := Except.error 7, stopR := Except.ok () } : LifecycleService Nat)
      (Except.ok 0) = ([LifecycleEvent.startCalled, LifecycleEvent.stopCalled],
        Except.error 7) := rfl

/-- C1 (amended): `stop()` is called exactly once on every exit path —
including when `start()` raises, because `start()` sits inside the `try`
protected by the `finally`; when `stop()` itself succeeds, a `start()`
failure propagates after `stop()` ran, a body failure propagates after
`stop()` ran, and a normal body completion returns its value. The body is
never run when `start()` raised. -/
theorem claim_C1 {E A : Type} (svc : LifecycleService E) (body : Except E A) :
    (manage_lifecycle svc body).1.count LifecycleEvent.stopCalled = 1 ∧
    (∀ e, svc.startR = Except.error e →
      (manage_lifecycle svc body).1 = [LifecycleEvent.startCalled, LifecycleEvent.stopCalled] ∧
      (svc.stopR = Except.ok () → (manage_lifecycle svc body).2 = Except.error e)) ∧
    (svc.startR = Except.ok () →
      (manage_lifecycle svc body).1 =
        [LifecycleEvent.startCalled, LifecycleEvent.bodyCalled, LifecycleEvent.stopCalled]) ∧
    (∀ a, svc.startR = Except.ok () → body = Except.ok a → svc.stopR = Except.ok () →
      (manage_lifecycle svc body).2 = Except.ok a) ∧
    (∀ e, svc.startR = Except.ok () → body = Except.error e → svc.stopR = Except.ok () →
      (manage_lifecycle svc body).2 = Except.error e) := by
  obtain ⟨startR, stopR⟩ := svc
  refine ⟨?_, ?_, ?_, ?_, ?_⟩
  · cases startR <;> cases stopR <;> cases body <;> rfl
  · intro e he
    cases he
    constructor
    · rfl
    · intro hstop
      have hs : stopR = Except.ok () := hstop
      cases hs
      rfl
  · intro hstart
    cases hstart
    cases body <;> rfl
  · intro a hstart hbody hstop
    cases hstart
    cases hbody
    have hs : stopR = Except.ok () := hstop
    cases hs
    rfl
  · intro e hstart hbody hstop
    cases hstart
    cases hbody
    have hs : stopR = Except.ok () := hstop
    cases hs
    rfl

/-- Witness for C1 (amended) at a concrete service: a successful start and
stop around a successful body of value `3`, and the failing-start conjunct
at error `7`. -/
theorem claim_C1_witness :
    (manage_lifecycle ({ startR := Except.ok (), stopR := Except.ok () } :
        LifecycleService Nat) (Except.ok 3)).1 =
      [LifecycleEvent.startCalled, LifecycleEvent.bodyCalled, LifecycleEvent.stopCalled] ∧
    (manage_lifecycle ({ startR := Except.ok (), stopR := Except.ok () } :
        LifecycleService Nat) (Except.ok 3)).2 = Except.ok 3 ∧
    (manage_lifecycle ({ startR := Except.error 7, stopR := Except.ok () } :
        LifecycleService Nat) (Except.ok 3)).1 =
      [LifecycleEvent.startCalled, LifecycleEvent.stopCalled] := by
  have hok := claim_C1 ({ startR := Except.ok (), stopR := Except.ok () } :
    LifecycleService Nat) (Except.ok 3)
  have hbad := claim_C1 ({ startR := Except.error 7, stopR := Except.ok () } :
    LifecycleService Nat) (Except.ok 3)
  exact ⟨hok.2.2.1 rfl, hok.2.2.2.1 3 rfl rfl rfl, (hbad.2.1 7 rfl).1⟩

/-- Rewriting resolv.conf a second time changes nothing: the filter drops
exactly the lines the first pass already dropped. -/
theorem remove_conf_idem (d : Bool) (conf : List String) :
    remove_dns_resolve_conf d (remove_dns_resolve_conf d conf) =
      remove_dns_resolve_conf d conf := by
  cases d
  · simp [remove_dns_resolve_conf, List.filter_filter]
  · simp [remove_dns_resolve_conf]

/-- Counterexample for C5: `DnsServer.stop` has no started-guard (unlike
`WebServer.stop`); on a service whose `start()` was never invoked it touches
the never-assigned `_dns_server` attribute and raises `AttributeError`,
refuting "raises no error". -/
theorem claim_C5_counterexample :
    DnsServer.stop { dry_run := false, dns_server := none, resolver := none }
      ["nameserver 127.0.0.1"] = Except.error PyError.attributeError := rfl

/-- C5 (amended): `WebServer.stop` is idempotent (the shutdown block is
guarded by `_is_running`) and `GitServer.stop` is a no-op, so for those two
a repeated or premature `stop()` raises no error and duplicates nothing;
`DnsServer.stop`, however, fails with `AttributeError` when `start()` never
ran, while a second `stop()` after a successful one succeeds and leaves both
the state and resolv.conf unchanged. -/
theorem claim_C5 :
    (∀ st : WebServerState, WebServer.stop (WebServer.stop st) = WebServer.stop st) ∧
    (∀ st : GitServerState, GitServer.stop (GitServer.stop st) = GitServer.stop st) ∧
    (∀ st conf, st.dns_server = none →
      DnsServer.stop st conf = Except.error PyError.attributeError) ∧
    (∀ st conf st2 conf2, DnsServer.stop st conf = Except.ok (st2, conf2) →
      DnsServer.stop st2 conf2 = Except.ok (st2, conf2)) := by
  refine ⟨?_, ?_, ?_, ?_⟩
  · intro st
    obtain ⟨r, v⟩ := st
    cases r <;> rfl
  · intro st
    rfl
  · intro st conf h
    simp [DnsServer.stop, h]
  · intro st conf st2 conf2 h
    cases hds : st.dns_server with
    | none => simp [DnsServer.stop, hds] at h
    | some srv =>
      simp only [DnsServer.stop, hds, Except.ok.injEq, Prod.mk.injEq] at h
      obtain ⟨hst2, hconf2⟩ := h
      subst hst2
      subst hconf2
      simp only [DnsServer.stop]
      rw [remove_conf_idem]

/-- Witness for C5 (amended): a running web server stopped twice, a
dns server stopped without a start, and a dns server stopped twice after a
successful start, each at concrete states. -/
theorem claim_C5_witness :
    WebServer.stop (WebServer.stop { is_running := true, vhosts := [] }) =
      WebServer.stop { is_running := true, vhosts := [] } ∧
    DnsServer.stop { dry_run := false, dns_server := none, resolver := none } [] =
      Except.error PyError.attributeError ∧
    DnsServer.stop
      { dry_run := false, dns_server := some { closed := true }, resolver := none }
      ["search local"] =
      Except.ok
        ({ dry_run := false, dns_server := some { closed := true }, resolver := none },
          ["search local"]) := by
  refine ⟨claim_C5.1 { is_running := true, vhosts := [] },
    claim_C5.2.2.1 { dry_run := false, dns_server := none, resolver := none } [] rfl,
    claim_C5.2.2.2
      { dry_run := false, dns_server := some { closed := false }, resolver := none }
      ["nameserver 127.0.0.1", "search local"]
      { dry_run := false, dns_server := some { closed := true }, resolver := none }
      ["search local"] rfl⟩

/-- Counterexample for C9: for a URL whose parsed form has no hostname the
raised error is `DnsServerError`, which is not a subclass of
`ConfigurationError` (both are sibling subclasses of the package's base
`Error`), refuting "raises a ConfigurationError-class error". -/
theorem claim_C9_counterexample :
    DnsServer.add_host_by_url
      { dry_run := false, dns_server := none, resolver := some { cache := [] } }
      (fun _ => none) "/no-hostname" "127.0.0.1" =
      Except.error (PyError.raised ErrorClass.dnsServerError) ∧
    isSubclassOf ErrorClass.dnsServerError ErrorClass.configurationError = false :=
  ⟨rfl, rfl⟩

/-- C9 (amended): for every URL whose parsed form has no hostname component
(or an empty one), `add_host_by_url` raises `DnsServerError` — a subclass of
the package's base `Error`, but not of `ConfigurationError` — and registers
nothing; for a URL with a hostname, on an initialized resolver, it returns
the pair `(hostname, ip)` after inserting the entry into the resolver
cache. -/
theorem claim_C9 (st : DnsServerState) (hostname_of : String → Option String)
    (url ip : String) :
    (hostname_of url = none →
      DnsServer.add_host_by_url st hostname_of url ip =
        Except.error (PyError.raised ErrorClass.dnsServerError)) ∧
    (hostname_of url = some "" →
      DnsServer.add_host_by_url st hostname_of url ip =
        Except.error (PyError.raised ErrorClass.dnsServerError)) ∧
    (∀ h r, hostname_of url = some h → h ≠ "" → st.resolver = some r →
      DnsServer.add_host_by_url st hostname_of url ip =
        Except.ok ({ st with resolver := some { r with cache := cache_add r.cache h ip } },
          (h, ip)) ∧
      (h, ip) ∈ cache_add r.cache h ip) ∧
    isSubclassOf ErrorClass.dnsServerError ErrorClass.error = true ∧
    isSubclassOf ErrorClass.dnsServerError ErrorClass.configurationError = false := by
  refine ⟨?_, ?_, ?_, rfl, rfl⟩
  · intro hnone
    simp [DnsServer.add_host_by_url, hnone]
  · intro hempty
    simp [DnsServer.add_host_by_url, hempty]
  · intro h r hh hne hr
    refine ⟨?_, ?_⟩
    · simp [DnsServer.add_host_by_url, hh, hne, DnsServer.add_host, hr]
    · simp [cache_add]

/-- Witness for C9 (amended): registration through a URL parsing to
hostname `x.test`, on a resolver already holding one other entry. -/
theorem claim_C9_witness :
    DnsServer.add_host_by_url
      { dry_run := false, dns_server := none,
        resolver := some { cache := [("old.test", "10.0.0.1")] } }
      (fun _ => some "x.test") "http://x.test/" "127.0.0.1" =
      Except.ok
        ({ dry_run := false, dns_server := none, resolver := some { cache := [("x.test", "127.0.0.1"), ("old.test", "10.0.0.1")] } },
          ("x.test", "127.0.0.1")) ∧
    ("x.test", "127.0.0.1") ∈ [("x.test", "127.0.0.1"), ("old.test", "10.0.0.1")] := by
  have h := (claim_C9
    { dry_run := false, dns_server := none,
      resolver := some { cache := [("old.test", "10.0.0.1")] } }
    (fun _ => some "x.test") "http://x.test/" "127.0.0.1").2.2.1
    "x.test" { cache := [("old.test", "10.0.0.1")] } rfl (by decide) rfl
  refine ⟨?_, h.2⟩
  rw [h.1]
  rfl
